import Mathlib

/-!
# Index provisioning job (`AutoCreate.go`): embedding and verified properties

The Go program is embedded shallowly.

* A Go `string` is a sequence of bytes (`GoString`).
* Everything outside the process (the search cluster, the network) is an
  arbitrary state `σ` together with a `Client σ` that answers the two HTTP
  calls the program makes; the answers may depend on, and change, that state.
* Effectful Go functions become state-passing functions over `World σ`, which
  pairs the outside state with a `trace`: the list, oldest first, of every
  observable action of the process (HTTP calls, sleeps, printed lines).
* A `for` loop over a slice or over `0 .. attempts-1` is a structural
  recursion over the list of values the loop variable takes.
* The environment variables, the value of `time.Now()` (an instant and a
  location with its zone periods) and the client constructor are inputs of
  `AddIndex`.
-/

set_option autoImplicit false
set_option maxRecDepth 1000000

namespace AutoCreate

/-! ## Strings -/

/-- Go strings are immutable byte sequences. -/
abbrev GoString := List UInt8

/-- The bytes of a string literal (UTF-8, as Go source text is). -/
def goStr (s : String) : GoString := s.data.flatMap String.utf8EncodeChar

/-- Go `strings.Contains(s, substr)`: `substr` occurs in `s` as a contiguous
run of bytes. The empty `substr` occurs in every `s`. -/
def stringsContains : GoString → GoString → Bool
  | [], substr => substr.isEmpty
  | c :: cs, substr => substr.isPrefixOf (c :: cs) || stringsContains cs substr

/-- Go `strings.Split(s, sep)` for a one-byte separator `sep` (every call in
the program passes `","`): the pieces of `s` between occurrences of `sep`.
A string without the separator, the empty string included, gives a slice of
length one holding that string. -/
def stringsSplit (sep : UInt8) : GoString → List GoString
  | [] => [[]]
  | c :: cs =>
    if c = sep then [] :: stringsSplit sep cs
    else
      match stringsSplit sep cs with
      | [] => [[c]]
      | piece :: pieces => (c :: piece) :: pieces

/-- The byte `,`. -/
def comma : UInt8 := 44

/-! ## Constants (lines 17-80) -/

def indexSettingsDefault : GoString := goStr "\x7b\n\t\t\"settings\": \x7b\n\t\t\t\"number_of_shards\": 5,\n\t\t\t\"number_of_replicas\": 1,\n\t\t\t\"refresh_interval\": \"30s\",\n\t\t\t\"translog\": \x7b\n\t\t\t\t\"flush_threshold_size\": \"512m\",\n\t\t\t\t\"durability\": \"async\"\n\t\t\t\x7d\n\t\t\x7d,\n\t\t\"mappings\": \x7b\n\t\t\t\"properties\": \x7b\n\t\t\t\t\"timestamp\": \x7b\n\t\t\t\t\t\"type\": \"date\",\n\t\t\t\t\t\"format\": \"epoch_millis\"\n\t\t\t\t\x7d\n\t\t\t\x7d\n\t\t\x7d\n\t\x7d"

def indexSettingsSpecial : GoString := goStr "\x7b\n\t\t\"settings\": \x7b\n\t\t\t\"number_of_shards\": 5,\n\t\t\t\"number_of_replicas\": 1,\n\t\t\t\"refresh_interval\": \"30s\",\n\t\t\t\"translog\": \x7b\n\t\t\t\t\"flush_threshold_size\": \"512m\",\n\t\t\t\t\"durability\": \"async\"\n\t\t\t\x7d\n\t\t\x7d,\n\t\t\"mappings\": \x7b\n\t\t\t\"properties\": \x7b\n\t\t\t\t\"sendTimeStamp\": \x7b\n\t\t\t\t\t\"type\": \"date\",\n\t\t\t\t\t\"format\": \"epoch_millis\"\n\t\t\t\t\x7d\n\t\t\t\x7d\n\t\t\x7d\n\t\x7d"

def indexSettingsQuery : GoString := goStr "\x7b\n\t\t\"settings\": \x7b\n\t\t\t\"number_of_shards\": 5,\n\t\t\t\"number_of_replicas\": 1,\n\t\t\t\"refresh_interval\": \"30s\",\n\t\t\t\"translog\": \x7b\n\t\t\t\t\"flush_threshold_size\": \"512m\",\n\t\t\t\t\"durability\": \"async\"\n\t\t\t\x7d\n\t\t\x7d,\n\t\t\"mappings\": \x7b\n\t\t\t\"properties\": \x7b\n\t\t\t\t\"queryTimeStamp\": \x7b\n\t\t\t\t\t\"type\": \"date\",\n\t\t\t\t\t\"format\": \"epoch_millis\"\n\t\t\t\t\x7d\n\t\t\t\x7d\n\t\t\x7d\n\t\x7d"

/-- A Go `time.Duration`: a count of nanoseconds. -/
abbrev Duration := Int

def retryCount : Int := 3

/-- The constant `2 * time.Second`. -/
def retryInterval : Duration := 2 * 1000000000

/-- The marker looked for in the body of a 400 response (line 197). -/
def alreadyExistsMarker : GoString := goStr "resource_already_exists_exception"

/-! ## Errors, responses, the cluster client -/

/-- The Go `error` values the program handles. -/
inductive GoError where
  /-- An error handed back by the client library (network failure, timeout
  of the 10 second context, ...), identified by its message. -/
  | transport (msg : GoString)
  /-- Line 175: the existence check got an error status. -/
  | checkFailed (statusCode : Int)
  /-- Line 201: the creation got an error status; carries status and body. -/
  | createFailed (statusCode : Int) (body : GoString)
  /-- Line 218: the error `retry` makes when its loop ends. -/
  | retriesExceeded
  deriving DecidableEq, Repr

/-- The part of `esapi.Response` the program reads: the status code and the
bytes `io.ReadAll` gets from the body. -/
structure Response where
  StatusCode : Int
  Body : GoString
  deriving DecidableEq, Repr

/-- The library method `esapi.Response.IsError`: `StatusCode > 299`. -/
def Response.IsError (res : Response) : Bool := decide (res.StatusCode > 299)

/-- The constant `http.StatusNotFound`. -/
def StatusNotFound : Int := 404

/-- The constant `http.StatusBadRequest`. -/
def StatusBadRequest : Int := 400

/-- What a call on the cluster client gives back: Go's `(res, err)`. -/
abbrev CallResult := Except GoError Response

/-- The behaviour of the cluster client: the answer to each of the two calls,
as a function of the outside state, which the call may change. -/
structure Client (σ : Type) where
  /-- The call `client.Indices.Exists([]string{indexName}, ...)`. -/
  indicesExists : GoString → σ → CallResult × σ
  /-- The call `esapi.IndicesCreateRequest{Index, Body}.Do(ctx, client)`. -/
  indicesCreate : GoString → GoString → σ → CallResult × σ

/-! ## Observable actions -/

/-- The lines the program prints, one constructor per `Printf` site. -/
inductive LogLine where
  /-- Lines 91, 99. -/
  | portError
  /-- Line 114. -/
  | clientError
  /-- Line 137. -/
  | checkError (err : GoError)
  /-- Line 141: the index already exists. -/
  | alreadyExists (indexName : GoString)
  /-- Line 156. -/
  | createError (err : GoError)
  /-- Line 198: a 400 carrying the already-exists marker. -/
  | conflictAsCreated (indexName : GoString)
  /-- Line 203. -/
  | created (indexName : GoString)
  deriving DecidableEq, Repr

/-- One observable action of the process. -/
inductive Event where
  /-- An existence request was sent for the index. -/
  | existsCall (indexName : GoString)
  /-- A creation request was sent for the index with the given body. -/
  | createCall (indexName : GoString) (body : GoString)
  /-- A call of `time.Sleep`. -/
  | sleep (d : Duration)
  /-- A printed line. -/
  | printf (line : LogLine)
  /-- An invocation of an instrumented operation (see `invoke`). -/
  | opCall
  deriving DecidableEq, Repr

/-- The state threaded through the program: the state of everything the
program reads or changes, and the trace of its actions, oldest first. -/
structure World (σ : Type) where
  store : σ
  trace : List Event
  deriving DecidableEq

/-- Append one action to the trace. -/
def World.emit {σ : Type} (w : World σ) (e : Event) : World σ :=
  ⟨w.store, w.trace ++ [e]⟩

/-- The call `time.Sleep(d)`. -/
def timeSleep {σ : Type} (d : Duration) (w : World σ) : World σ :=
  w.emit (Event.sleep d)

/-! ## `retry` (lines 207-219) -/

/-- The loop of `retry`: the first argument lists the values `i` still has
to take. The empty list is the loop running to its end (line 218). -/
def retryLoop {σ : Type} (attempts : Int) (sleep : Duration)
    (fn : World σ → Option GoError × World σ) :
    List Nat → World σ → Option GoError × World σ
  | [], w => (some GoError.retriesExceeded, w)
  | i :: rest, w =>
    match fn w with
    | (some err, w1) =>
      if (i : Int) < attempts - 1 then
        retryLoop attempts sleep fn rest (timeSleep sleep w1)
      else
        (some err, w1)
    | (none, w1) => (none, w1)

/-- The function `retry`: `for i := 0; i < attempts; i++`, so `i` runs over
`0, 1, ..., attempts-1` (no value when `attempts ≤ 0`). A Go `error` result is
`none` for `nil`. -/
def retry {σ : Type} (attempts : Int) (sleep : Duration)
    (fn : World σ → Option GoError × World σ) (w : World σ) :
    Option GoError × World σ :=
  retryLoop attempts sleep fn (List.range attempts.toNat) w

/-! ## `indexExists` (lines 162-178) -/

def indexExists {σ : Type} (client : Client σ) (indexName : GoString)
    (w : World σ) : (Bool × Option GoError) × World σ :=
  match client.indicesExists indexName w.store with
  | (Except.error err, s) =>
    ((false, some err), ⟨s, w.trace ++ [Event.existsCall indexName]⟩)
  | (Except.ok res, s) =>
    let w1 : World σ := ⟨s, w.trace ++ [Event.existsCall indexName]⟩
    if res.StatusCode = StatusNotFound then ((false, none), w1)
    else if res.IsError then ((false, some (GoError.checkFailed res.StatusCode)), w1)
    else ((true, none), w1)

/-! ## `createIndexWithMapping` (lines 180-205) -/

def createIndexWithMapping {σ : Type} (client : Client σ)
    (indexName mapping : GoString) (w : World σ) : Option GoError × World σ :=
  match client.indicesCreate indexName mapping w.store with
  | (Except.error err, s) =>
    (some err, ⟨s, w.trace ++ [Event.createCall indexName mapping]⟩)
  | (Except.ok res, s) =>
    let w1 : World σ := ⟨s, w.trace ++ [Event.createCall indexName mapping]⟩
    if res.IsError then
      if res.StatusCode = StatusBadRequest ∧
          stringsContains res.Body alreadyExistsMarker = true then
        (none, w1.emit (Event.printf (LogLine.conflictAsCreated indexName)))
      else
        (some (GoError.createFailed res.StatusCode res.Body), w1)
    else
      (none, w1.emit (Event.printf (LogLine.created indexName)))

/-! ## `contains` (lines 221-228) -/

def contains : List GoString → GoString → Bool
  | [], _ => false
  | v :: rest, item => if stringsContains item v then true else contains rest item

/-! ## `createIndexes` (lines 128-160) -/

/-- The closure passed to the first `retry` (lines 131-135). It assigns the
captured variable `exists`, which is the first component of the store. -/
def existsClosure {σ : Type} (client : Client σ) (indexName : GoString)
    (w : World (Bool × σ)) : Option GoError × World (Bool × σ) :=
  match indexExists client indexName ⟨w.store.2, w.trace⟩ with
  | ((ex, err), w1) => (err, ⟨(ex, w1.store), w1.trace⟩)

/-- The retried existence check of lines 130-135, started with
`exists = false` (the zero value of `var exists bool`). -/
def checkExists {σ : Type} (client : Client σ) (indexName : GoString)
    (w : World σ) : Option GoError × World (Bool × σ) :=
  retry retryCount retryInterval (existsClosure client indexName)
    ⟨(false, w.store), w.trace⟩

/-- The template choice of lines 143-150. -/
def selectSettings (specialIndexList queryIndexList : List GoString)
    (indexName : GoString) : GoString :=
  if contains specialIndexList indexName then indexSettingsSpecial
  else if contains queryIndexList indexName then indexSettingsQuery
  else indexSettingsDefault

/-- One iteration of the loop of `createIndexes` (lines 130-158). -/
def createIndexesBody {σ : Type} (client : Client σ) (indexName : GoString)
    (specialIndexList queryIndexList : List GoString) (w : World σ) : World σ :=
  match checkExists client indexName w with
  | (some err, w1) =>
    ⟨w1.store.2, w1.trace ++ [Event.printf (LogLine.checkError err)]⟩
  | (none, w1) =>
    if w1.store.1 then
      ⟨w1.store.2, w1.trace ++ [Event.printf (LogLine.alreadyExists indexName)]⟩
    else
      let indexSettings := selectSettings specialIndexList queryIndexList indexName
      match retry retryCount retryInterval
          (createIndexWithMapping client indexName indexSettings)
          ⟨w1.store.2, w1.trace⟩ with
      | (some err, w2) => w2.emit (Event.printf (LogLine.createError err))
      | (none, w2) => w2

def createIndexes {σ : Type} (client : Client σ) :
    List GoString → List GoString → List GoString → World σ → World σ
  | [], _, _, w => w
  | indexName :: rest, specialIndexList, queryIndexList, w =>
    createIndexes client rest specialIndexList queryIndexList
      (createIndexesBody client indexName specialIndexList queryIndexList w)

/-! ## `AddIndex` (lines 82-126) -/

/-- Go `strconv.Atoi` on a 64-bit platform: an optional sign, then one or
more decimal digits, the value within the range of `int`; anything else is an
error (`none`). -/
def strconvAtoi (s : GoString) : Option Int :=
  let digitsOf (ds : GoString) : Option Nat :=
    if ds.isEmpty then none
    else ds.foldl (fun (acc : Option Nat) (ch : UInt8) =>
      match acc with
      | none => none
      | some n => if 48 ≤ ch ∧ ch ≤ 57 then some (n * 10 + (ch.toNat - 48)) else none)
      (some 0)
  let signed : Option Int :=
    match s with
    | 45 :: ds => (digitsOf ds).map (fun n => -(n : Int))
    | 43 :: ds => (digitsOf ds).map (fun n => (n : Int))
    | ds => (digitsOf ds).map (fun n => (n : Int))
  match signed with
  | none => none
  | some v => if -(2 : Int) ^ 63 ≤ v ∧ v < (2 : Int) ^ 63 then some v else none

/-- The decimal digits of a natural number, as bytes. -/
def decimal (n : Nat) : GoString := (Nat.toDigits 10 n).map (fun c => c.toNat.toUInt8)

/-- The verb `%d` of `fmt.Sprintf` on an `int`. -/
def formatInt (v : Int) : GoString :=
  if v < 0 then 45 :: decimal v.natAbs else decimal v.natAbs

/-- The helper `appendInt(b, x, width)` of package `time`: the decimal digits
of `x`, padded on the left with zeros to at least `width` digits, after a
minus sign when `x` is negative. -/
def appendInt (x : Int) (width : Nat) : GoString :=
  let ds := decimal x.natAbs
  let padded := List.replicate (width - ds.length) (48 : UInt8) ++ ds
  if x < 0 then 45 :: padded else padded

/-- One zone period of a location, as the method `lookup` of `time.Location`
reports it: the offset in seconds east of UTC and the period
`[start, stop)`, in Unix seconds, during which that offset applies. -/
structure Zone where
  offset : Int
  start : Int
  stop : Int

/-- A `*time.Location`: for each instant, in Unix seconds, the zone period in
force. -/
structure Location where
  lookup : Int → Zone

/-- A `time.Time`, at the resolution of one second: the instant in Unix
seconds and the location. The nanoseconds are left out: `AddDate` carries
them over unchanged, they stay below one second, and `Format("20060102")`
does not print them. Years are taken within the range Go represents, so that
no 64-bit arithmetic overflows. -/
structure Time where
  unix : Int
  loc : Location

/-- Days from 1970-01-01 to the given day of the proleptic Gregorian
calendar; `day` may lie outside the month, the count goes on linearly. -/
def daysFromCivil (year month day : Int) : Int :=
  let y := if month ≤ 2 then year - 1 else year
  let era := y / 400
  let yoe := y - era * 400
  let mp := if month > 2 then month - 3 else month + 9
  let doy := (153 * mp + 2) / 5 + day - 1
  let doe := yoe * 365 + yoe / 4 - yoe / 100 + doy
  era * 146097 + doe - 719468

/-- Year, month and day of the proleptic Gregorian calendar of the day that
lies `z` days after 1970-01-01. -/
def civilFromDays (z : Int) : Int × Int × Int :=
  let z1 := z + 719468
  let era := z1 / 146097
  let doe := z1 - era * 146097
  let yoe := (doe - doe / 1460 + doe / 36524 - doe / 146096) / 365
  let doy := doe - (365 * yoe + yoe / 4 - yoe / 100)
  let mp := (5 * doy + 2) / 153
  let d := doy - (153 * mp + 2) / 5 + 1
  let m := if mp < 10 then mp + 3 else mp - 9
  let y := yoe + era * 400
  (if m ≤ 2 then y + 1 else y, m, d)

/-- The seconds of the wall clock of `t` in its location, counted from
1970-01-01 00:00:00 of that wall clock. -/
def Time.wallSeconds (t : Time) : Int :=
  t.unix + (t.loc.lookup t.unix).offset

/-- The method `t.Date()`: year, month and day in the location of `t`. -/
def Time.Date (t : Time) : Int × Int × Int :=
  civilFromDays (t.wallSeconds / 86400)

/-- The method `t.Clock()`: hour, minute and second in the location of `t`. -/
def Time.Clock (t : Time) : Int × Int × Int :=
  let secs := t.wallSeconds % 86400
  (secs / 3600, secs % 3600 / 60, secs % 60)

/-- The function `time.Date(year, month, day, hour, min, sec, nsec, loc)`
with `nsec` within one second. Values out of range are normalised: months
carry into the year, seconds, minutes and hours carry upwards, and the days
are counted on from the first of the month. The zone offset is looked up at
the wall-clock value read as UTC, and looked up again at the resulting
instant when that instant falls outside the period found. -/
def timeDate (year month day hour min sec : Int) (loc : Location) : Time :=
  let m0 := month - 1
  let year1 := year + m0 / 12
  let month1 := m0 % 12 + 1
  let min1 := min + sec / 60
  let sec1 := sec % 60
  let hour1 := hour + min1 / 60
  let min2 := min1 % 60
  let day1 := day + hour1 / 24
  let hour2 := hour1 % 24
  let days := daysFromCivil year1 month1 1 + (day1 - 1)
  let unix := days * 86400 + hour2 * 3600 + min2 * 60 + sec1
  let zone := loc.lookup unix
  if zone.offset ≠ 0 then
    let utc := unix - zone.offset
    let offset :=
      if utc < zone.start ∨ utc ≥ zone.stop then (loc.lookup utc).offset else zone.offset
    ⟨unix - offset, loc⟩
  else
    ⟨unix, loc⟩

/-- The method `t.AddDate(years, months, days)`: the date of `t` with the
three numbers added, at the wall-clock time of `t`, in the location of `t`. -/
def Time.AddDate (t : Time) (years months days : Int) : Time :=
  match t.Date, t.Clock with
  | (year, month, day), (hour, min, sec) =>
    timeDate (year + years) (month + months) (day + days) hour min sec t.loc

/-- The call `t.Format("20060102")`: year, month and day of `t` in its
location, zero padded to four, two and two digits. -/
def Time.format20060102 (t : Time) : GoString :=
  match t.Date with
  | (year, month, day) => appendInt year 4 ++ appendInt month 2 ++ appendInt day 2

/-- The location `time.UTC`: offset zero at every instant. -/
def utcLocation : Location :=
  ⟨fun _ => ⟨0, -(2 : Int) ^ 63, (2 : Int) ^ 63 - 1⟩⟩

/-- The zone periods of `America/Santiago` on both sides of the change of
8 September 2024 (04:00 UTC), when the wall clock went from 24:00 to 01:00. -/
def santiagoLocation : Location :=
  ⟨fun unix =>
    if unix < 1725768000 then ⟨-14400, 1712458800, 1725768000⟩
    else ⟨-10800, 1725768000, 1743908400⟩⟩

/-- The environment variables `AddIndex` reads; `os.Getenv` gives the empty
string for a variable that is not set. -/
structure Environ where
  ELASTICSEARCH_HOST : GoString
  ELASTICSEARCH_PORT : GoString
  ELASTICSEARCH_USERNAME : GoString
  ELASTICSEARCH_PASSWORD : GoString
  INDEXES : GoString
  SpecialList : GoString
  QueryList : GoString

/-- The fields of `elasticsearch.Config` that `AddIndex` sets from its
inputs. -/
structure Config where
  Addresses : List GoString
  Username : GoString
  Password : GoString
  deriving DecidableEq, Repr

/-- The loop of lines 121-125. -/
def addIndexLoop {σ : Type} (client : Client σ) (currentDate : Time)
    (specialIndexList queryIndexList : List GoString) :
    List GoString → World σ → World σ
  | [], w => w
  | index :: rest, w =>
    let indexDate := currentDate.AddDate 0 0 1
    let indexName := index ++ indexDate.format20060102
    addIndexLoop client currentDate specialIndexList queryIndexList rest
      (createIndexes client [indexName] specialIndexList queryIndexList w)

/-- The function `AddIndex`. Its inputs are made explicit: the environment,
the value of `time.Now()`, and the library constructor
`elasticsearch.NewClient`. The second test of `err` (line 98) repeats the
first on an unchanged variable and can never fire. -/
def AddIndex {σ : Type} (env : Environ) (currentDate : Time)
    (newClient : Config → Except GoError (Client σ)) (w : World σ) : World σ :=
  match strconvAtoi env.ELASTICSEARCH_PORT with
  | none => w.emit (Event.printf LogLine.portError)
  | some elasticsearchPort =>
    let cfg : Config :=
      { Addresses := [goStr "http://" ++ env.ELASTICSEARCH_HOST ++ goStr ":" ++
          formatInt elasticsearchPort]
        Username := env.ELASTICSEARCH_USERNAME
        Password := env.ELASTICSEARCH_PASSWORD }
    match newClient cfg with
    | Except.error _ => w.emit (Event.printf LogLine.clientError)
    | Except.ok client =>
      let specialIndexList := stringsSplit comma env.SpecialList
      let queryIndexList := stringsSplit comma env.QueryList
      let indexes := stringsSplit comma env.INDEXES
      addIndexLoop client currentDate specialIndexList queryIndexList indexes w

/-! ## Instrumented operations, used to count the invocations `retry` makes -/

/-- An arbitrary operation `op` on an arbitrary state, run as a step of the
process: it records one `opCall` in the trace each time it is invoked. -/
def invoke {σ : Type} (op : σ → Option GoError × σ) (w : World σ) :
    Option GoError × World σ :=
  match op w.store with
  | (r, s) => (r, ⟨s, w.trace ++ [Event.opCall]⟩)

/-- The state `op` leaves after `i` successive calls from `s`. -/
def stateAfter {σ : Type} (op : σ → Option GoError × σ) : Nat → σ → σ
  | 0, s => s
  | i + 1, s => stateAfter op i (op s).2

/-- The result of call number `i + 1` of `op`, the calls starting at `s`. -/
def resultOfCall {σ : Type} (op : σ → Option GoError × σ) (s : σ) (i : Nat) :
    Option GoError :=
  (op (stateAfter op i s)).1

/-- The actions of `k` invocations separated by sleeps of length `d`:
`opCall, sleep d, opCall, ..., opCall`. -/
def retryTrace (d : Duration) : Nat → List Event
  | 0 => []
  | 1 => [Event.opCall]
  | k + 2 => Event.opCall :: Event.sleep d :: retryTrace d (k + 1)

/-- An event is a creation request. -/
def Event.isCreate : Event → Bool
  | Event.createCall _ _ => true
  | _ => false

/-- An event belongs to the processing of index `name`: a request naming
that index, a sleep, or a printed line. -/
def Event.concerns (name : GoString) : Event → Bool
  | Event.existsCall n => decide (n = name)
  | Event.createCall n _ => decide (n = name)
  | Event.sleep _ => true
  | Event.printf _ => true
  | Event.opCall => false

/-! ## A client that keeps a log of the requests it receives -/

/-- A request as the cluster client receives it. -/
inductive Call where
  /-- An existence request for the index. -/
  | existsReq (indexName : GoString)
  /-- A creation request for the index with the given body. -/
  | createReq (indexName : GoString) (body : GoString)
  deriving DecidableEq, Repr

/-- The client `client` with a log added to its state: it answers as `client`
does and writes down every request it receives, oldest first. Only the client
writes to the log. -/
def recording {σ : Type} (client : Client σ) : Client (σ × List Call) where
  indicesExists := fun name s =>
    ((client.indicesExists name s.1).1,
      ((client.indicesExists name s.1).2, s.2 ++ [Call.existsReq name]))
  indicesCreate := fun name body s =>
    ((client.indicesCreate name body s.1).1,
      ((client.indicesCreate name body s.1).2, s.2 ++ [Call.createReq name body]))

/-- The request an event of the trace stands for, when it is one. -/
def Event.toCall : Event → Option Call
  | Event.existsCall n => some (Call.existsReq n)
  | Event.createCall n body => some (Call.createReq n body)
  | _ => none

/-! ## Example clients and operations -/

/-- A cluster on which an index exists once it has been created: the state is
the list of existing index names. -/
def memoryCluster : Client (List GoString) where
  indicesExists := fun name s =>
    if name ∈ s then (Except.ok ⟨200, []⟩, s) else (Except.ok ⟨404, []⟩, s)
  indicesCreate := fun name _ s =>
    if name ∈ s then
      (Except.ok ⟨400, goStr "\x7b\"error\":\x7b\"type\":\"resource_already_exists_exception\"\x7d,\"status\":400\x7d"⟩, s)
    else (Except.ok ⟨200, []⟩, name :: s)

/-- A cluster that cannot be reached: every call fails in the transport. -/
def downCluster : Client Unit where
  indicesExists := fun _ s => (Except.error (GoError.transport (goStr "connection refused")), s)
  indicesCreate := fun _ _ s => (Except.error (GoError.transport (goStr "connection refused")), s)

/-- A cluster like `memoryCluster`, except that every existence request for
`badcheck` fails in the transport and every creation request for `badcreate`
is answered with status 500. -/
def faultyCluster : Client (List GoString) where
  indicesExists := fun name s =>
    if name = goStr "badcheck" then (Except.error (GoError.transport (goStr "timeout")), s)
    else memoryCluster.indicesExists name s
  indicesCreate := fun name body s =>
    if name = goStr "badcreate" then (Except.ok ⟨500, goStr "internal error"⟩, s)
    else memoryCluster.indicesCreate name body s

/-- An operation that fails on its first `k` calls, each time with the number
of the call in its message, and succeeds from then on; the state counts the
calls made. -/
def failsFirst (k : Nat) (calls : Nat) : Option GoError × Nat :=
  if calls < k then (some (GoError.transport [calls.toUInt8]), calls + 1)
  else (none, calls + 1)

end AutoCreate

/-! # Properties -/

namespace AutoCreate

/-! ## Strings and lists -/

theorem stringsContains_iff_occurs (s substr : GoString) :
    stringsContains s substr = true ↔ substr <:+: s := by
  induction s with
  | nil => simp [stringsContains, List.infix_nil]
  | cons c cs ih =>
    simp [stringsContains, List.infix_cons_iff, ih, List.isPrefixOf_iff_prefix]

theorem contains_iff (list : List GoString) (item : GoString) :
    contains list item = true ↔ ∃ v ∈ list, v <:+: item := by
  induction list with
  | nil => simp [contains]
  | cons v rest ih =>
    by_cases h : stringsContains item v = true
    · have hv := (stringsContains_iff_occurs item v).1 h
      simp [contains, h, hv]
    · have hv : ¬ v <:+: item := fun hi => h ((stringsContains_iff_occurs item v).2 hi)
      simp [contains, h, hv, ih]

/-! ## `retry` on instrumented operations -/

theorem invoke_eq {σ : Type} (op : σ → Option GoError × σ) (s : σ) (tr : List Event) :
    invoke op ⟨s, tr⟩ = ((op s).1, ⟨(op s).2, tr ++ [Event.opCall]⟩) := rfl

theorem resultOfCall_zero {σ : Type} (op : σ → Option GoError × σ) (s : σ) :
    resultOfCall op s 0 = (op s).1 := rfl

theorem resultOfCall_succ {σ : Type} (op : σ → Option GoError × σ) (s : σ) (j : Nat) :
    resultOfCall op s (j + 1) = resultOfCall op (op s).2 j := rfl

theorem retryLoop_cons_retry {σ : Type} (attempts : Int) (d : Duration)
    (fn : World σ → Option GoError × World σ) (i : Nat) (rest : List Nat)
    (w w1 : World σ) (err : GoError) (hfn : fn w = (some err, w1))
    (hlt : (i : Int) < attempts - 1) :
    retryLoop attempts d fn (i :: rest) w = retryLoop attempts d fn rest (timeSleep d w1) := by
  simp only [retryLoop, hfn, hlt, if_true]

theorem retryLoop_cons_last {σ : Type} (attempts : Int) (d : Duration)
    (fn : World σ → Option GoError × World σ) (i : Nat) (rest : List Nat)
    (w w1 : World σ) (err : GoError) (hfn : fn w = (some err, w1))
    (hlt : ¬ (i : Int) < attempts - 1) :
    retryLoop attempts d fn (i :: rest) w = (some err, w1) := by
  simp only [retryLoop, hfn, hlt, if_false]

theorem retryLoop_cons_ok {σ : Type} (attempts : Int) (d : Duration)
    (fn : World σ → Option GoError × World σ) (i : Nat) (rest : List Nat)
    (w w1 : World σ) (hfn : fn w = (none, w1)) :
    retryLoop attempts d fn (i :: rest) w = (none, w1) := by
  simp only [retryLoop, hfn]

/-- When each of the `m` calls still to be made fails, the loop makes them
all and returns the error of the last one. -/
theorem retryLoop_all_fail {σ : Type} (attempts : Int) (d : Duration)
    (op : σ → Option GoError × σ) :
    ∀ (m i : Nat) (s : σ) (tr : List Event), (i : Int) + (m + 1 : Nat) = attempts →
      (∀ j, j < m + 1 → resultOfCall op s j ≠ none) →
      retryLoop attempts d (invoke op) (List.range' i (m + 1)) ⟨s, tr⟩ =
        (resultOfCall op s m, ⟨stateAfter op (m + 1) s, tr ++ retryTrace d (m + 1)⟩) := by
  intro m
  induction m with
  | zero =>
    intro i s tr hi hfail
    have h0 := hfail 0 (by omega)
    rw [resultOfCall_zero] at h0
    obtain ⟨err, herr⟩ := Option.ne_none_iff_exists'.1 h0
    have hlt : ¬ ((i : Int) < attempts - 1) := by omega
    have hrange : List.range' i (0 + 1) = [i] := rfl
    have hfn : invoke op ⟨s, tr⟩ = (some err, ⟨(op s).2, tr ++ [Event.opCall]⟩) := by
      rw [invoke_eq, herr]
    rw [hrange, retryLoop_cons_last attempts d _ i [] _ _ err hfn hlt, resultOfCall_zero, herr]
    simp [stateAfter, retryTrace]
  | succ m ih =>
    intro i s tr hi hfail
    have h0 := hfail 0 (by omega)
    rw [resultOfCall_zero] at h0
    obtain ⟨err, herr⟩ := Option.ne_none_iff_exists'.1 h0
    have hlt : (i : Int) < attempts - 1 := by omega
    have hrec := ih (i + 1) (op s).2 (tr ++ [Event.opCall] ++ [Event.sleep d])
      (by push_cast at hi ⊢; omega)
      (fun j hj => by rw [← resultOfCall_succ]; exact hfail (j + 1) (by omega))
    have hrange : List.range' i (m + 1 + 1) = i :: List.range' (i + 1) (m + 1) := rfl
    have hfn : invoke op ⟨s, tr⟩ = (some err, ⟨(op s).2, tr ++ [Event.opCall]⟩) := by
      rw [invoke_eq, herr]
    rw [hrange, retryLoop_cons_retry attempts d _ i _ _ _ err hfn hlt]
    simp only [timeSleep, World.emit]
    rw [hrec, resultOfCall_succ]
    simp [stateAfter, retryTrace]

/-- When the first success is call number `k + 1` and at least that many
calls are allowed, the loop stops right after it. -/
theorem retryLoop_first_success {σ : Type} (attempts : Int) (d : Duration)
    (op : σ → Option GoError × σ) :
    ∀ (k m i : Nat) (s : σ) (tr : List Event), (i : Int) + (m : Nat) = attempts →
      k + 1 ≤ m → (∀ j, j < k → resultOfCall op s j ≠ none) →
      resultOfCall op s k = none →
      retryLoop attempts d (invoke op) (List.range' i m) ⟨s, tr⟩ =
        (none, ⟨stateAfter op (k + 1) s, tr ++ retryTrace d (k + 1)⟩) := by
  intro k
  induction k with
  | zero =>
    intro m i s tr _ hm _ hok
    obtain ⟨m, rfl⟩ : ∃ m1, m = m1 + 1 := ⟨m - 1, by omega⟩
    have hrange : List.range' i (m + 1) = i :: List.range' (i + 1) m := rfl
    rw [resultOfCall_zero] at hok
    have hfn : invoke op ⟨s, tr⟩ = (none, ⟨(op s).2, tr ++ [Event.opCall]⟩) := by
      rw [invoke_eq, hok]
    rw [hrange, retryLoop_cons_ok attempts d _ i _ _ _ hfn]
    simp [stateAfter, retryTrace]
  | succ k ih =>
    intro m i s tr hi hm hfail hok
    obtain ⟨m, rfl⟩ : ∃ m1, m = m1 + 1 := ⟨m - 1, by omega⟩
    have hrange : List.range' i (m + 1) = i :: List.range' (i + 1) m := rfl
    have h0 := hfail 0 (by omega)
    rw [resultOfCall_zero] at h0
    obtain ⟨err, herr⟩ := Option.ne_none_iff_exists'.1 h0
    have hlt : (i : Int) < attempts - 1 := by omega
    have hrec := ih m (i + 1) (op s).2 (tr ++ [Event.opCall] ++ [Event.sleep d])
      (by push_cast at hi ⊢; omega) (by omega)
      (fun j hj => by rw [← resultOfCall_succ]; exact hfail (j + 1) (by omega))
      (by rw [← resultOfCall_succ]; exact hok)
    have hfn : invoke op ⟨s, tr⟩ = (some err, ⟨(op s).2, tr ++ [Event.opCall]⟩) := by
      rw [invoke_eq, herr]
    rw [hrange, retryLoop_cons_retry attempts d _ i _ _ _ err hfn hlt]
    simp only [timeSleep, World.emit]
    rw [hrec]
    simp [stateAfter, retryTrace]

theorem retryTrace_counts (d : Duration) (k : Nat) :
    (retryTrace d (k + 1)).count Event.opCall = k + 1 ∧
    (retryTrace d (k + 1)).count (Event.sleep d) = k ∧
    (retryTrace d (k + 1)).length = 2 * k + 1 := by
  induction k with
  | zero => simp [retryTrace]
  | succ k ih =>
    obtain ⟨h1, h2, h3⟩ := ih
    refine ⟨?_, ?_, ?_⟩
    · simp [retryTrace, h1]
    · simp [retryTrace, h2]
    · simp [retryTrace, h3]; omega

/-! ## Claims about `retry` -/

/-- C6 (retry exhaustion): for every `n ≥ 1` and every operation whose first
`n` calls all fail, `retry n delay op` returns the error of call number `n`,
having invoked the operation exactly `n` times: the state is the one after `n`
calls and the trace gained `retryTrace delay n`, which holds `n` calls. -/
theorem retry_exhaustion_returns_last_error {σ : Type} (n : Nat) (hn : 1 ≤ n)
    (d : Duration) (op : σ → Option GoError × σ) (s : σ) (tr : List Event)
    (hfail : ∀ j, j < n → resultOfCall op s j ≠ none) :
    retry (n : Int) d (invoke op) ⟨s, tr⟩ =
        (resultOfCall op s (n - 1), ⟨stateAfter op n s, tr ++ retryTrace d n⟩) ∧
      (∃ err, resultOfCall op s (n - 1) = some err) ∧
      (retryTrace d n).count Event.opCall = n := by
  obtain ⟨m, rfl⟩ : ∃ m, n = m + 1 := ⟨n - 1, by omega⟩
  refine ⟨?_, ?_, (retryTrace_counts d m).1⟩
  · have h := retryLoop_all_fail ((m + 1 : Nat) : Int) d op m 0 s tr (by simp) hfail
    simpa [retry, List.range_eq_range'] using h
  · exact Option.ne_none_iff_exists'.1 (hfail m (by omega))

/-- Witness of C6: an operation that always fails, three attempts. -/
theorem retry_exhaustion_returns_last_error_witness :
    1 ≤ 3 ∧ (∀ j, j < 3 → resultOfCall (failsFirst 7) 0 j ≠ none) ∧
    (retry ((3 : Nat) : Int) retryInterval (invoke (failsFirst 7)) ⟨0, []⟩ =
        (resultOfCall (failsFirst 7) 0 (3 - 1),
          ⟨stateAfter (failsFirst 7) 3 0, [] ++ retryTrace retryInterval 3⟩) ∧
      (∃ err, resultOfCall (failsFirst 7) 0 (3 - 1) = some err) ∧
      (retryTrace retryInterval 3).count Event.opCall = 3) :=
  ⟨by decide, by decide,
    retry_exhaustion_returns_last_error 3 (by decide) retryInterval (failsFirst 7) 0 []
      (by decide)⟩

/-- C7 (retry stops at the first success): when the first successful call of
the operation is call number `k`, with `1 ≤ k ≤ n`, `retry n delay op`
returns success, the state is the one after exactly `k` calls, and the trace
gained `retryTrace delay k`: `k` calls and `k - 1` sleeps of length `delay`,
and nothing else. -/
theorem retry_stops_at_first_success {σ : Type} (n k : Nat) (hk : 1 ≤ k) (hkn : k ≤ n)
    (d : Duration) (op : σ → Option GoError × σ) (s : σ) (tr : List Event)
    (hfail : ∀ j, j < k - 1 → resultOfCall op s j ≠ none)
    (hok : resultOfCall op s (k - 1) = none) :
    retry (n : Int) d (invoke op) ⟨s, tr⟩ =
        (none, ⟨stateAfter op k s, tr ++ retryTrace d k⟩) ∧
      (retryTrace d k).count Event.opCall = k ∧
      (retryTrace d k).count (Event.sleep d) = k - 1 ∧
      (retryTrace d k).length = 2 * k - 1 := by
  obtain ⟨m, rfl⟩ : ∃ m, k = m + 1 := ⟨k - 1, by omega⟩
  obtain ⟨h1, h2, h3⟩ := retryTrace_counts d m
  refine ⟨?_, h1, by simpa using h2, by omega⟩
  have h := retryLoop_first_success (n : Int) d op m n 0 s tr (by simp) hkn
    (by simpa using hfail) (by simpa using hok)
  simpa [retry, List.range_eq_range'] using h

/-- Witness of C7: an operation that fails twice and then succeeds, three
attempts: success after three calls and two sleeps. -/
theorem retry_stops_at_first_success_witness :
    1 ≤ 3 ∧ 3 ≤ 3 ∧ (∀ j, j < 3 - 1 → resultOfCall (failsFirst 2) 0 j ≠ none) ∧
    resultOfCall (failsFirst 2) 0 (3 - 1) = none ∧
    (retry ((3 : Nat) : Int) retryInterval (invoke (failsFirst 2)) ⟨0, []⟩ =
        (none, ⟨stateAfter (failsFirst 2) 3 0, [] ++ retryTrace retryInterval 3⟩) ∧
      (retryTrace retryInterval 3).count Event.opCall = 3 ∧
      (retryTrace retryInterval 3).count (Event.sleep retryInterval) = 3 - 1 ∧
      (retryTrace retryInterval 3).length = 2 * 3 - 1) :=
  ⟨by decide, by decide, by decide, by decide,
    retry_stops_at_first_success 3 3 (by decide) (by decide) retryInterval (failsFirst 2) 0 []
      (by decide) (by decide)⟩

/-- C8 (zero attempts): `retry 0 delay op` returns the exhaustion error and
leaves the world as it was: the operation is not invoked and nothing sleeps,
whatever the operation and the delay. -/
theorem retry_zero_attempts {σ : Type} (d : Duration)
    (fn : World σ → Option GoError × World σ) (w : World σ) :
    retry 0 d fn w = (some GoError.retriesExceeded, w) := rfl

/-! ## Claims about the two cluster calls -/

/-- C9 (existence-check classification): `indexExists` returns
`(false, nil)` exactly when the transport call succeeds with status 404;
returns an error exactly when the transport call fails (that error) or the
response has another error status; and returns `(true, nil)` exactly in the
remaining case. It never reports `true` together with an error. -/
theorem indexExists_classification {σ : Type} (client : Client σ)
    (indexName : GoString) (w : World σ) :
    ((indexExists client indexName w).1 = (false, none) ↔
      ∃ res, (client.indicesExists indexName w.store).1 = Except.ok res ∧
        res.StatusCode = 404) ∧
    ((indexExists client indexName w).1.2 ≠ none ↔
      (∃ err, (client.indicesExists indexName w.store).1 = Except.error err) ∨
      ∃ res, (client.indicesExists indexName w.store).1 = Except.ok res ∧
        res.StatusCode ≠ 404 ∧ res.IsError = true) ∧
    ((indexExists client indexName w).1 = (true, none) ↔
      ∃ res, (client.indicesExists indexName w.store).1 = Except.ok res ∧
        res.StatusCode ≠ 404 ∧ res.IsError = false) ∧
    (∀ err, (client.indicesExists indexName w.store).1 = Except.error err →
      (indexExists client indexName w).1 = (false, some err)) ∧
    (∀ res, (client.indicesExists indexName w.store).1 = Except.ok res →
      res.StatusCode ≠ 404 → res.IsError = true →
      (indexExists client indexName w).1 = (false, some (GoError.checkFailed res.StatusCode))) ∧
    ((indexExists client indexName w).1.1 = true → (indexExists client indexName w).1.2 = none) := by
  unfold indexExists
  rcases hcall : client.indicesExists indexName w.store with ⟨r, s⟩
  cases r with
  | error err => simp
  | ok res =>
    by_cases h404 : res.StatusCode = 404
    · simp [h404, StatusNotFound]
    · by_cases herr : res.IsError = true
      · simp [h404, herr, StatusNotFound]
      · simp [h404, herr, StatusNotFound]

/-- C5 (conflict-tolerant creation): `createIndexWithMapping` returns `nil`
if and only if the transport call returned a response and either its status
is not an error status, or it is 400 and the body contains
`resource_already_exists_exception`. A transport error is returned as it is;
a 400 without the marker, and every error status other than 400 (whatever the
body), is returned as a failure. -/
theorem createIndexWithMapping_success_iff {σ : Type} (client : Client σ)
    (indexName mapping : GoString) (w : World σ) :
    ((createIndexWithMapping client indexName mapping w).1 = none ↔
      ∃ res, (client.indicesCreate indexName mapping w.store).1 = Except.ok res ∧
        (res.IsError = false ∨
          (res.StatusCode = 400 ∧ alreadyExistsMarker <:+: res.Body))) ∧
    (∀ err, (client.indicesCreate indexName mapping w.store).1 = Except.error err →
      (createIndexWithMapping client indexName mapping w).1 = some err) ∧
    (∀ res, (client.indicesCreate indexName mapping w.store).1 = Except.ok res →
      res.StatusCode = 400 → ¬ alreadyExistsMarker <:+: res.Body →
      (createIndexWithMapping client indexName mapping w).1 =
        some (GoError.createFailed 400 res.Body)) ∧
    (∀ res, (client.indicesCreate indexName mapping w.store).1 = Except.ok res →
      res.IsError = true → res.StatusCode ≠ 400 →
      (createIndexWithMapping client indexName mapping w).1 =
        some (GoError.createFailed res.StatusCode res.Body)) := by
  unfold createIndexWithMapping
  rcases hcall : client.indicesCreate indexName mapping w.store with ⟨r, s⟩
  cases r with
  | error err => simp
  | ok res =>
    by_cases herr : res.IsError = true
    · by_cases h400 : res.StatusCode = 400
      · by_cases hm : alreadyExistsMarker <:+: res.Body
        · simp [herr, h400, hm, StatusBadRequest, stringsContains_iff_occurs]
        · simp [herr, h400, hm, StatusBadRequest, stringsContains_iff_occurs]
      · simp [herr, h400, StatusBadRequest]
    · have h400 : res.StatusCode ≠ 400 := by
        intro h
        apply herr
        simp [Response.IsError, h]
      simp [herr, h400]

/-! ## The trace of a retried call -/

/-- If every call of `fn` appends `e0` and then only events satisfying `P`,
and `e0` and the sleep satisfy `P`, then the loop of `retry` appends only
events satisfying `P`, the first of them `e0` when the loop runs at all. -/
theorem retryLoop_trace {σ : Type} (attempts : Int) (d : Duration)
    (fn : World σ → Option GoError × World σ) (P : Event → Prop) (e0 : Event)
    (hfn : ∀ w, ∃ evs, (fn w).2.trace = w.trace ++ e0 :: evs ∧ ∀ e ∈ evs, P e)
    (h0 : P e0) (hs : P (Event.sleep d)) :
    ∀ (l : List Nat) (w : World σ), ∃ evs,
      (retryLoop attempts d fn l w).2.trace = w.trace ++ evs ∧ (∀ e ∈ evs, P e) ∧
      (l ≠ [] → ∃ evs1, evs = e0 :: evs1) := by
  intro l
  induction l with
  | nil => intro w; exact ⟨[], by simp [retryLoop], by simp, by simp⟩
  | cons i rest ih =>
    intro w
    obtain ⟨evs1, htr, hP⟩ := hfn w
    rcases hcall : fn w with ⟨r, w1⟩
    rw [hcall] at htr
    simp only at htr
    cases r with
    | none =>
      rw [retryLoop_cons_ok attempts d fn i rest w w1 hcall]
      refine ⟨e0 :: evs1, htr, ?_, fun _ => ⟨evs1, rfl⟩⟩
      intro e he
      rcases List.mem_cons.1 he with h | h
      · rw [h]; exact h0
      · exact hP e h
    | some err =>
      by_cases hlt : (i : Int) < attempts - 1
      · rw [retryLoop_cons_retry attempts d fn i rest w w1 err hcall hlt]
        obtain ⟨evs2, htr2, hP2, _⟩ := ih (timeSleep d w1)
        refine ⟨e0 :: (evs1 ++ Event.sleep d :: evs2), ?_, ?_, fun _ => ⟨_, rfl⟩⟩
        · rw [htr2]
          simp [timeSleep, World.emit, htr]
        · intro e he
          simp only [List.mem_cons, List.mem_append] at he
          rcases he with h | h | h | h
          · rw [h]; exact h0
          · exact hP e h
          · rw [h]; exact hs
          · exact hP2 e h
      · rw [retryLoop_cons_last attempts d fn i rest w w1 err hcall hlt]
        refine ⟨e0 :: evs1, htr, ?_, fun _ => ⟨evs1, rfl⟩⟩
        intro e he
        rcases List.mem_cons.1 he with h | h
        · rw [h]; exact h0
        · exact hP e h

theorem existsClosure_trace {σ : Type} (client : Client σ) (indexName : GoString)
    (w : World (Bool × σ)) :
    (existsClosure client indexName w).2.trace = w.trace ++ [Event.existsCall indexName] := by
  unfold existsClosure indexExists
  rcases client.indicesExists indexName w.store.2 with ⟨r, s⟩
  cases r with
  | error err => rfl
  | ok res =>
    by_cases h404 : res.StatusCode = StatusNotFound
    · simp [h404]
    · by_cases herr : res.IsError = true
      · simp [h404, herr]
      · simp [h404, herr]

theorem createIndexWithMapping_trace {σ : Type} (client : Client σ)
    (indexName mapping : GoString) (w : World σ) :
    ∃ evs, (createIndexWithMapping client indexName mapping w).2.trace =
        w.trace ++ Event.createCall indexName mapping :: evs ∧
      ∀ e ∈ evs, ∃ line, e = Event.printf line := by
  unfold createIndexWithMapping
  rcases client.indicesCreate indexName mapping w.store with ⟨r, s⟩
  cases r with
  | error err => exact ⟨[], rfl, by simp⟩
  | ok res =>
    by_cases herr : res.IsError = true
    · by_cases hc : res.StatusCode = StatusBadRequest ∧
          stringsContains res.Body alreadyExistsMarker = true
      · exact ⟨[Event.printf (LogLine.conflictAsCreated indexName)],
          by simp [herr, hc, World.emit], by simp⟩
      · exact ⟨[], by simp [herr, hc], by simp⟩
    · exact ⟨[Event.printf (LogLine.created indexName)], by simp [herr, World.emit], by simp⟩

/-- The retried existence check appends an existence request for the index
and then only further such requests and sleeps. -/
theorem checkExists_trace {σ : Type} (client : Client σ) (indexName : GoString)
    (w : World σ) :
    ∃ evs, (checkExists client indexName w).2.trace =
        w.trace ++ Event.existsCall indexName :: evs ∧
      ∀ e ∈ evs, e = Event.existsCall indexName ∨ e = Event.sleep retryInterval := by
  obtain ⟨evs, htr, hP, hhead⟩ := retryLoop_trace retryCount retryInterval
    (existsClosure client indexName)
    (fun e => e = Event.existsCall indexName ∨ e = Event.sleep retryInterval)
    (Event.existsCall indexName)
    (fun w1 => ⟨[], by simp [existsClosure_trace], by simp⟩)
    (Or.inl rfl) (Or.inr rfl) (List.range retryCount.toNat) ⟨(false, w.store), w.trace⟩
  obtain ⟨evs1, rfl⟩ := hhead (by decide)
  exact ⟨evs1, htr, fun e he => hP e (List.mem_cons_of_mem _ he)⟩

/-- The retried creation appends a creation request for the index with the
given body and then only further such requests, sleeps and printed lines. -/
theorem retry_create_trace {σ : Type} (client : Client σ) (indexName body : GoString)
    (w : World σ) :
    ∃ evs, (retry retryCount retryInterval
          (createIndexWithMapping client indexName body) w).2.trace =
        w.trace ++ Event.createCall indexName body :: evs ∧
      ∀ e ∈ evs, e = Event.createCall indexName body ∨ e = Event.sleep retryInterval ∨
        ∃ line, e = Event.printf line := by
  obtain ⟨evs, htr, hP, hhead⟩ := retryLoop_trace retryCount retryInterval
    (createIndexWithMapping client indexName body)
    (fun e => e = Event.createCall indexName body ∨ e = Event.sleep retryInterval ∨
        ∃ line, e = Event.printf line)
    (Event.createCall indexName body)
    (fun w1 => by
      obtain ⟨evs, h1, h2⟩ := createIndexWithMapping_trace client indexName body w1
      exact ⟨evs, h1, fun e he => Or.inr (Or.inr (h2 e he))⟩)
    (Or.inl rfl) (Or.inr (Or.inl rfl)) (List.range retryCount.toNat) w
  obtain ⟨evs1, rfl⟩ := hhead (by decide)
  exact ⟨evs1, htr, fun e he => hP e (List.mem_cons_of_mem _ he)⟩

theorem createIndexes_append {σ : Type} (client : Client σ) (pre rest : List GoString)
    (specialIndexList queryIndexList : List GoString) (w : World σ) :
    createIndexes client (pre ++ rest) specialIndexList queryIndexList w =
      createIndexes client rest specialIndexList queryIndexList
        (createIndexes client pre specialIndexList queryIndexList w) := by
  induction pre generalizing w with
  | nil => rfl
  | cons n pre ih => exact ih (createIndexesBody client n specialIndexList queryIndexList w)

theorem createIndexes_cons {σ : Type} (client : Client σ) (indexName : GoString)
    (rest : List GoString) (specialIndexList queryIndexList : List GoString) (w : World σ) :
    createIndexes client (indexName :: rest) specialIndexList queryIndexList w =
      createIndexes client rest specialIndexList queryIndexList
        (createIndexesBody client indexName specialIndexList queryIndexList w) := rfl

/-- When the retried existence check ends in an error, all three attempts
were made and failed. -/
theorem checkExists_error_trace {σ : Type} (client : Client σ) (indexName : GoString)
    (w : World σ) (w1 : World (Bool × σ)) (err : GoError)
    (hcheck : checkExists client indexName w = (some err, w1)) :
    w1.trace = w.trace ++ [Event.existsCall indexName, Event.sleep retryInterval,
      Event.existsCall indexName, Event.sleep retryInterval, Event.existsCall indexName] := by
  have hrange : List.range retryCount.toNat = [0, 1, 2] := by decide
  unfold checkExists retry at hcheck
  rw [hrange] at hcheck
  rcases hc0 : existsClosure client indexName ⟨(false, w.store), w.trace⟩ with ⟨r0, x0⟩
  have ht0 := existsClosure_trace client indexName ⟨(false, w.store), w.trace⟩
  rw [hc0] at ht0
  cases r0 with
  | none => rw [retryLoop_cons_ok _ _ _ _ _ _ _ hc0] at hcheck; simp at hcheck
  | some e0 =>
    rw [retryLoop_cons_retry _ _ _ _ _ _ _ _ hc0 (by decide)] at hcheck
    rcases hc1 : existsClosure client indexName (timeSleep retryInterval x0) with ⟨r1, x1⟩
    have ht1 := existsClosure_trace client indexName (timeSleep retryInterval x0)
    rw [hc1] at ht1
    cases r1 with
    | none => rw [retryLoop_cons_ok _ _ _ _ _ _ _ hc1] at hcheck; simp at hcheck
    | some e1 =>
      rw [retryLoop_cons_retry _ _ _ _ _ _ _ _ hc1 (by decide)] at hcheck
      rcases hc2 : existsClosure client indexName (timeSleep retryInterval x1) with ⟨r2, x2⟩
      have ht2 := existsClosure_trace client indexName (timeSleep retryInterval x1)
      rw [hc2] at ht2
      cases r2 with
      | none => rw [retryLoop_cons_ok _ _ _ _ _ _ _ hc2] at hcheck; simp at hcheck
      | some e2 =>
        rw [retryLoop_cons_last _ _ _ _ _ _ _ _ hc2 (by decide)] at hcheck
        have hw : x2 = w1 := (Prod.mk.inj hcheck).2
        subst hw
        simp only [timeSleep, World.emit] at ht0 ht1 ht2
        rw [ht2, ht1, ht0]
        simp

/-! ## Claims about `createIndexes` -/

/-- C1 (idempotence): wherever a name stands in the list, if its retried
existence check ends with `exists = true` and no error, then `createIndexes`
only prints the already-exists line for it and goes on with the rest of the
list; the events of the check are existence requests and sleeps, none of them
a creation request. -/
theorem createIndexes_existing_index_no_create {σ : Type} (client : Client σ)
    (pre : List GoString) (indexName : GoString) (rest : List GoString)
    (specialIndexList queryIndexList : List GoString) (w : World σ)
    (w1 : World (Bool × σ))
    (hcheck : checkExists client indexName
      (createIndexes client pre specialIndexList queryIndexList w) = (none, w1))
    (hexists : w1.store.1 = true) :
    createIndexes client (pre ++ indexName :: rest) specialIndexList queryIndexList w =
        createIndexes client rest specialIndexList queryIndexList
          ⟨w1.store.2, w1.trace ++ [Event.printf (LogLine.alreadyExists indexName)]⟩ ∧
      ∃ evs, w1.trace =
          (createIndexes client pre specialIndexList queryIndexList w).trace ++ evs ∧
        ∀ e ∈ evs, (e = Event.existsCall indexName ∨ e = Event.sleep retryInterval) ∧
          e.isCreate = false := by
  constructor
  · rw [createIndexes_append, createIndexes_cons]
    unfold createIndexesBody
    rw [hcheck]
    simp [hexists]
  · obtain ⟨evs, htr, hP⟩ := checkExists_trace client indexName
      (createIndexes client pre specialIndexList queryIndexList w)
    rw [hcheck] at htr
    refine ⟨Event.existsCall indexName :: evs, htr, ?_⟩
    intro e he
    rcases List.mem_cons.1 he with h | h
    · subst h; exact ⟨Or.inl rfl, rfl⟩
    · rcases hP e h with h1 | h1
      · subst h1; exact ⟨Or.inl rfl, rfl⟩
      · subst h1; exact ⟨Or.inr rfl, rfl⟩

/-- Witness of C1: a cluster that already holds `logs20240615`. -/
theorem createIndexes_existing_index_no_create_witness :
    checkExists memoryCluster (goStr "logs20240615")
        (createIndexes memoryCluster [] [] [] ⟨[goStr "logs20240615"], []⟩) =
      (none, ⟨(true, [goStr "logs20240615"]), [Event.existsCall (goStr "logs20240615")]⟩) ∧
    (createIndexes memoryCluster ([] ++ goStr "logs20240615" :: []) [] []
          ⟨[goStr "logs20240615"], []⟩ =
        createIndexes memoryCluster [] [] []
          ⟨[goStr "logs20240615"], [Event.existsCall (goStr "logs20240615")] ++
            [Event.printf (LogLine.alreadyExists (goStr "logs20240615"))]⟩ ∧
      ∃ evs, [Event.existsCall (goStr "logs20240615")] =
          (createIndexes memoryCluster [] [] [] ⟨[goStr "logs20240615"], []⟩).trace ++ evs ∧
        ∀ e ∈ evs, (e = Event.existsCall (goStr "logs20240615") ∨
            e = Event.sleep retryInterval) ∧ e.isCreate = false) :=
  ⟨by decide,
    createIndexes_existing_index_no_create memoryCluster [] (goStr "logs20240615") [] [] []
      ⟨[goStr "logs20240615"], []⟩
      ⟨(true, [goStr "logs20240615"]), [Event.existsCall (goStr "logs20240615")]⟩
      (by decide) rfl⟩

/-- C2 (fail-skip): wherever a name stands in the list, if its existence
check ends in an error, then all three attempts were made, and
`createIndexes` only prints the error and goes on with the rest of the list:
for that name the trace gains three existence requests, two sleeps and the
printed line, and no creation request. -/
theorem createIndexes_check_error_skips {σ : Type} (client : Client σ)
    (pre : List GoString) (indexName : GoString) (rest : List GoString)
    (specialIndexList queryIndexList : List GoString) (w : World σ)
    (w1 : World (Bool × σ)) (err : GoError)
    (hcheck : checkExists client indexName
      (createIndexes client pre specialIndexList queryIndexList w) = (some err, w1)) :
    createIndexes client (pre ++ indexName :: rest) specialIndexList queryIndexList w =
        createIndexes client rest specialIndexList queryIndexList
          ⟨w1.store.2,
            (createIndexes client pre specialIndexList queryIndexList w).trace ++
              [Event.existsCall indexName, Event.sleep retryInterval,
                Event.existsCall indexName, Event.sleep retryInterval,
                Event.existsCall indexName, Event.printf (LogLine.checkError err)]⟩ := by
  have htr := checkExists_error_trace client indexName _ w1 err hcheck
  rw [createIndexes_append, createIndexes_cons]
  unfold createIndexesBody
  rw [hcheck]
  simp [htr]

/-- Witness of C2: a cluster that cannot be reached. -/
theorem createIndexes_check_error_skips_witness :
    checkExists downCluster (goStr "logs20240615")
        (createIndexes downCluster [] [] [] ⟨(), []⟩) =
      (some (GoError.transport (goStr "connection refused")),
        ⟨(false, ()), [Event.existsCall (goStr "logs20240615"), Event.sleep retryInterval,
          Event.existsCall (goStr "logs20240615"), Event.sleep retryInterval,
          Event.existsCall (goStr "logs20240615")]⟩) ∧
    createIndexes downCluster ([] ++ goStr "logs20240615" :: []) [] [] ⟨(), []⟩ =
      createIndexes downCluster [] [] []
        ⟨(),
          (createIndexes downCluster [] [] [] ⟨(), []⟩).trace ++
            [Event.existsCall (goStr "logs20240615"), Event.sleep retryInterval,
              Event.existsCall (goStr "logs20240615"), Event.sleep retryInterval,
              Event.existsCall (goStr "logs20240615"),
              Event.printf (LogLine.checkError
                (GoError.transport (goStr "connection refused")))]⟩ :=
  ⟨by decide,
    createIndexes_check_error_skips downCluster [] (goStr "logs20240615") [] [] []
      ⟨(), []⟩
      ⟨(false, ()), [Event.existsCall (goStr "logs20240615"), Event.sleep retryInterval,
          Event.existsCall (goStr "logs20240615"), Event.sleep retryInterval,
          Event.existsCall (goStr "logs20240615")]⟩
      (GoError.transport (goStr "connection refused")) (by decide)⟩

/-- C3 (template selection): when the retried existence check reports the
index absent, `createIndexes` next sends a creation request for it, and every
creation request it sends for it carries the same body: the Special document
if some entry of the special list occurs in the name, else the Query document
if some entry of the query list occurs in the name, else the Default
document. With special list `["metrics"]` and query list `["audit"]` on an
empty cluster, `metrics20240615`, `audit20240615` and `orders20240615` are
created with the Special, Query and Default documents, which are three
different documents. -/
theorem createIndexes_template_selection {σ : Type} (client : Client σ)
    (indexName : GoString) (specialIndexList queryIndexList : List GoString)
    (w : World σ) (w1 : World (Bool × σ))
    (hcheck : checkExists client indexName w = (none, w1))
    (habsent : w1.store.1 = false) :
    (∃ body evs,
      (createIndexesBody client indexName specialIndexList queryIndexList w).trace =
          w1.trace ++ Event.createCall indexName body :: evs ∧
        (∀ e ∈ evs, e.isCreate = true → e = Event.createCall indexName body) ∧
        ((∃ v ∈ specialIndexList, v <:+: indexName) → body = indexSettingsSpecial) ∧
        ((¬ ∃ v ∈ specialIndexList, v <:+: indexName) →
          (∃ v ∈ queryIndexList, v <:+: indexName) → body = indexSettingsQuery) ∧
        ((¬ ∃ v ∈ specialIndexList, v <:+: indexName) →
          (¬ ∃ v ∈ queryIndexList, v <:+: indexName) → body = indexSettingsDefault)) ∧
    (createIndexes memoryCluster
        [goStr "metrics20240615", goStr "audit20240615", goStr "orders20240615"]
        [goStr "metrics"] [goStr "audit"] ⟨[], []⟩).trace.filter Event.isCreate =
      [Event.createCall (goStr "metrics20240615") indexSettingsSpecial,
        Event.createCall (goStr "audit20240615") indexSettingsQuery,
        Event.createCall (goStr "orders20240615") indexSettingsDefault] ∧
    indexSettingsSpecial ≠ indexSettingsQuery ∧
    indexSettingsSpecial ≠ indexSettingsDefault ∧
    indexSettingsQuery ≠ indexSettingsDefault := by
  refine ⟨?_, by decide, by decide, by decide, by decide⟩
  refine ⟨selectSettings specialIndexList queryIndexList indexName, ?_⟩
  obtain ⟨evs, htr, hP⟩ := retry_create_trace client indexName
    (selectSettings specialIndexList queryIndexList indexName) ⟨w1.store.2, w1.trace⟩
  have hsel1 : (∃ v ∈ specialIndexList, v <:+: indexName) →
      selectSettings specialIndexList queryIndexList indexName = indexSettingsSpecial := by
    intro h
    simp [selectSettings, (contains_iff specialIndexList indexName).2 h]
  have hsel2 : (¬ ∃ v ∈ specialIndexList, v <:+: indexName) →
      (∃ v ∈ queryIndexList, v <:+: indexName) →
      selectSettings specialIndexList queryIndexList indexName = indexSettingsQuery := by
    intro hs hq
    have hs1 : ¬ contains specialIndexList indexName = true :=
      fun h => hs ((contains_iff specialIndexList indexName).1 h)
    simp [selectSettings, hs1, (contains_iff queryIndexList indexName).2 hq]
  have hsel3 : (¬ ∃ v ∈ specialIndexList, v <:+: indexName) →
      (¬ ∃ v ∈ queryIndexList, v <:+: indexName) →
      selectSettings specialIndexList queryIndexList indexName = indexSettingsDefault := by
    intro hs hq
    have hs1 : ¬ contains specialIndexList indexName = true :=
      fun h => hs ((contains_iff specialIndexList indexName).1 h)
    have hq1 : ¬ contains queryIndexList indexName = true :=
      fun h => hq ((contains_iff queryIndexList indexName).1 h)
    simp [selectSettings, hs1, hq1]
  have hprintf : ∀ line e, e = Event.printf line → e.isCreate = true →
      e = Event.createCall indexName
        (selectSettings specialIndexList queryIndexList indexName) := by
    intro line e he hc
    subst he
    simp [Event.isCreate] at hc
  have hrest : ∀ e ∈ evs, e.isCreate = true → e = Event.createCall indexName
      (selectSettings specialIndexList queryIndexList indexName) := by
    intro e he hc
    rcases hP e he with h | h | ⟨line, h⟩
    · exact h
    · subst h; simp [Event.isCreate] at hc
    · exact hprintf line e h hc
  rcases hcreate : retry retryCount retryInterval
      (createIndexWithMapping client indexName
        (selectSettings specialIndexList queryIndexList indexName))
      ⟨w1.store.2, w1.trace⟩ with ⟨r, w2⟩
  rw [hcreate] at htr
  simp only at htr
  cases r with
  | none =>
    refine ⟨evs, ?_, hrest, hsel1, hsel2, hsel3⟩
    unfold createIndexesBody
    rw [hcheck]
    simp only [habsent, Bool.false_eq_true, if_false]
    rw [hcreate]
    exact htr
  | some err =>
    refine ⟨evs ++ [Event.printf (LogLine.createError err)], ?_, ?_, hsel1, hsel2, hsel3⟩
    · unfold createIndexesBody
      rw [hcheck]
      simp only [habsent, Bool.false_eq_true, if_false]
      rw [hcreate]
      simp [World.emit, htr]
    · intro e he hc
      rcases List.mem_append.1 he with h | h
      · exact hrest e h hc
      · exact hprintf _ e (List.mem_singleton.1 h) hc

/-- Witness of C3: `metrics20240615` on an empty cluster, special list
`["metrics"]`, query list `["audit"]`. -/
theorem createIndexes_template_selection_witness :
    checkExists memoryCluster (goStr "metrics20240615") ⟨[], []⟩ =
      (none, ⟨(false, []), [Event.existsCall (goStr "metrics20240615")]⟩) ∧
    ((∃ body evs,
      (createIndexesBody memoryCluster (goStr "metrics20240615") [goStr "metrics"]
          [goStr "audit"] ⟨[], []⟩).trace =
          [Event.existsCall (goStr "metrics20240615")] ++
            Event.createCall (goStr "metrics20240615") body :: evs ∧
        (∀ e ∈ evs, e.isCreate = true →
          e = Event.createCall (goStr "metrics20240615") body) ∧
        ((∃ v ∈ [goStr "metrics"], v <:+: goStr "metrics20240615") →
          body = indexSettingsSpecial) ∧
        ((¬ ∃ v ∈ [goStr "metrics"], v <:+: goStr "metrics20240615") →
          (∃ v ∈ [goStr "audit"], v <:+: goStr "metrics20240615") →
          body = indexSettingsQuery) ∧
        ((¬ ∃ v ∈ [goStr "metrics"], v <:+: goStr "metrics20240615") →
          (¬ ∃ v ∈ [goStr "audit"], v <:+: goStr "metrics20240615") →
          body = indexSettingsDefault)) ∧
    (createIndexes memoryCluster
        [goStr "metrics20240615", goStr "audit20240615", goStr "orders20240615"]
        [goStr "metrics"] [goStr "audit"] ⟨[], []⟩).trace.filter Event.isCreate =
      [Event.createCall (goStr "metrics20240615") indexSettingsSpecial,
        Event.createCall (goStr "audit20240615") indexSettingsQuery,
        Event.createCall (goStr "orders20240615") indexSettingsDefault] ∧
    indexSettingsSpecial ≠ indexSettingsQuery ∧
    indexSettingsSpecial ≠ indexSettingsDefault ∧
    indexSettingsQuery ≠ indexSettingsDefault) :=
  ⟨by decide,
    createIndexes_template_selection memoryCluster (goStr "metrics20240615")
      [goStr "metrics"] [goStr "audit"] ⟨[], []⟩
      ⟨(false, []), [Event.existsCall (goStr "metrics20240615")]⟩ (by decide) rfl⟩

/-- One iteration of the loop starts with an existence request for its name
and appends only events that concern that name. -/
theorem createIndexesBody_trace {σ : Type} (client : Client σ) (indexName : GoString)
    (specialIndexList queryIndexList : List GoString) (w : World σ) :
    ∃ seg, (createIndexesBody client indexName specialIndexList queryIndexList w).trace =
        w.trace ++ Event.existsCall indexName :: seg ∧
      ∀ e ∈ seg, Event.concerns indexName e = true := by
  obtain ⟨evs, htr, hP⟩ := checkExists_trace client indexName w
  have hevs : ∀ e ∈ evs, Event.concerns indexName e = true := by
    intro e he
    rcases hP e he with h | h
    · subst h; simp [Event.concerns]
    · subst h; rfl
  have hsnoc : ∀ (l : List Event) (line : LogLine), (∀ e ∈ l, Event.concerns indexName e = true) →
      ∀ e ∈ l ++ [Event.printf line], Event.concerns indexName e = true := by
    intro l line hl e he
    rcases List.mem_append.1 he with h | h
    · exact hl e h
    · rw [List.mem_singleton.1 h]; rfl
  rcases hcheck : checkExists client indexName w with ⟨r, w1⟩
  rw [hcheck] at htr
  simp only at htr
  unfold createIndexesBody
  rw [hcheck]
  cases r with
  | some err =>
    exact ⟨evs ++ [Event.printf (LogLine.checkError err)], by simp [htr], hsnoc evs _ hevs⟩
  | none =>
    by_cases hex : w1.store.1 = true
    · exact ⟨evs ++ [Event.printf (LogLine.alreadyExists indexName)], by simp [hex, htr],
        hsnoc evs _ hevs⟩
    · obtain ⟨evs2, htr2, hP2⟩ := retry_create_trace client indexName
        (selectSettings specialIndexList queryIndexList indexName) ⟨w1.store.2, w1.trace⟩
      have hevs2 : ∀ e ∈ evs ++ Event.createCall indexName
          (selectSettings specialIndexList queryIndexList indexName) :: evs2,
          Event.concerns indexName e = true := by
        intro e he
        rcases List.mem_append.1 he with h | h
        · exact hevs e h
        · rcases List.mem_cons.1 h with h1 | h1
          · subst h1; simp [Event.concerns]
          · rcases hP2 e h1 with h2 | h2 | ⟨line, h2⟩
            · subst h2; simp [Event.concerns]
            · subst h2; rfl
            · subst h2; rfl
      rcases hcreate : retry retryCount retryInterval
          (createIndexWithMapping client indexName
            (selectSettings specialIndexList queryIndexList indexName))
          ⟨w1.store.2, w1.trace⟩ with ⟨r2, w2⟩
      rw [hcreate] at htr2
      simp only at htr2
      simp only [hex, if_false]
      rw [hcreate]
      cases r2 with
      | none => exact ⟨_, by simp [htr2, htr], hevs2⟩
      | some err2 =>
        exact ⟨(evs ++ Event.createCall indexName
            (selectSettings specialIndexList queryIndexList indexName) :: evs2) ++
            [Event.printf (LogLine.createError err2)],
          by simp [World.emit, htr2, htr], hsnoc _ _ hevs2⟩

/-- The events `createIndexes` appends are one segment per name, in list
order; the segment of a name starts with an existence request for that name
and holds only events that concern that name. -/
theorem createIndexes_segments {σ : Type} (client : Client σ)
    (indexNames specialIndexList queryIndexList : List GoString) (w : World σ) :
    ∃ segs : List (List Event),
      List.Forall₂ (fun n seg => ∀ e ∈ seg, Event.concerns n e = true) indexNames segs ∧
      (createIndexes client indexNames specialIndexList queryIndexList w).trace =
        w.trace ++
          (List.zipWith (fun n seg => Event.existsCall n :: seg) indexNames segs).flatten ∧
      (indexNames.map Event.existsCall).Sublist
        (List.zipWith (fun n seg => Event.existsCall n :: seg) indexNames segs).flatten := by
  induction indexNames generalizing w with
  | nil => exact ⟨[], List.Forall₂.nil, by simp [createIndexes], by simp⟩
  | cons n rest ih =>
    obtain ⟨seg, hseg, hc⟩ := createIndexesBody_trace client n specialIndexList
      queryIndexList w
    obtain ⟨segs, hall, htr, hsub⟩ :=
      ih (createIndexesBody client n specialIndexList queryIndexList w)
    refine ⟨seg :: segs, List.Forall₂.cons hc hall, ?_, ?_⟩
    · rw [createIndexes_cons, htr, hseg]
      simp
    · simp only [List.map_cons, List.zipWith_cons_cons, List.flatten_cons, List.cons_append]
      exact List.Sublist.cons₂ _ (List.sublist_append_of_sublist_right hsub)

/-! ## Invariants and simulation of a retried call -/

/-- A property of the world that the operation and the sleep preserve is
preserved by the loop of `retry`. -/
theorem retryLoop_invariant {σ : Type} (attempts : Int) (d : Duration)
    (fn : World σ → Option GoError × World σ) (I : World σ → Prop)
    (hfn : ∀ w, I w → I (fn w).2) (hs : ∀ w, I w → I (timeSleep d w)) :
    ∀ (l : List Nat) (w : World σ), I w → I (retryLoop attempts d fn l w).2 := by
  intro l
  induction l with
  | nil => intro w hw; exact hw
  | cons i rest ih =>
    intro w hw
    have h1 := hfn w hw
    rcases hcall : fn w with ⟨r, w1⟩
    rw [hcall] at h1
    cases r with
    | none => rw [retryLoop_cons_ok attempts d fn i rest w w1 hcall]; exact h1
    | some err =>
      by_cases hlt : (i : Int) < attempts - 1
      · rw [retryLoop_cons_retry attempts d fn i rest w w1 err hcall hlt]
        exact ih _ (hs w1 h1)
      · rw [retryLoop_cons_last attempts d fn i rest w w1 err hcall hlt]; exact h1

/-- Two operations that give the same result on related worlds and keep the
worlds related make the loop of `retry` give the same result and related
worlds. -/
theorem retryLoop_sim {σ τ : Type} (attempts : Int) (d : Duration)
    (fn : World σ → Option GoError × World σ) (gn : World τ → Option GoError × World τ)
    (R : World σ → World τ → Prop)
    (hfn : ∀ w v, R w v → (fn w).1 = (gn v).1 ∧ R (fn w).2 (gn v).2)
    (hs : ∀ w v, R w v → R (timeSleep d w) (timeSleep d v)) :
    ∀ (l : List Nat) (w : World σ) (v : World τ), R w v →
      (retryLoop attempts d fn l w).1 = (retryLoop attempts d gn l v).1 ∧
      R (retryLoop attempts d fn l w).2 (retryLoop attempts d gn l v).2 := by
  intro l
  induction l with
  | nil => intro w v hR; exact ⟨rfl, hR⟩
  | cons i rest ih =>
    intro w v hR
    obtain ⟨h1, h2⟩ := hfn w v hR
    rcases hf : fn w with ⟨r, w1⟩
    rcases hg : gn v with ⟨r1, v1⟩
    rw [hf, hg] at h1 h2
    simp only at h1 h2
    subst h1
    cases r with
    | none =>
      rw [retryLoop_cons_ok attempts d fn i rest w w1 hf,
        retryLoop_cons_ok attempts d gn i rest v v1 hg]
      exact ⟨rfl, h2⟩
    | some err =>
      by_cases hlt : (i : Int) < attempts - 1
      · rw [retryLoop_cons_retry attempts d fn i rest w w1 err hf hlt,
          retryLoop_cons_retry attempts d gn i rest v v1 err hg hlt]
        exact ih _ _ (hs w1 v1 h2)
      · rw [retryLoop_cons_last attempts d fn i rest w w1 err hf hlt,
          retryLoop_cons_last attempts d gn i rest v v1 err hg hlt]
        exact ⟨rfl, h2⟩

/-! ## The recording client -/

theorem existsClosure_recording {σ : Type} (client : Client σ) (indexName : GoString)
    (w : World (Bool × (σ × List Call))) :
    existsClosure (recording client) indexName w =
      ((existsClosure client indexName ⟨(w.store.1, w.store.2.1), w.trace⟩).1,
        ⟨((existsClosure client indexName ⟨(w.store.1, w.store.2.1), w.trace⟩).2.store.1,
            ((existsClosure client indexName ⟨(w.store.1, w.store.2.1), w.trace⟩).2.store.2,
              w.store.2.2 ++ [Call.existsReq indexName])),
          (existsClosure client indexName ⟨(w.store.1, w.store.2.1), w.trace⟩).2.trace⟩) := by
  unfold existsClosure indexExists recording
  simp only
  generalize client.indicesExists indexName w.store.2.1 = p
  rcases p with ⟨r, s⟩
  cases r with
  | error err => rfl
  | ok res =>
    by_cases h404 : res.StatusCode = StatusNotFound
    · simp [h404]
    · by_cases herr : res.IsError = true
      · simp [h404, herr]
      · simp [h404, herr]

theorem createIndexWithMapping_recording {σ : Type} (client : Client σ)
    (indexName mapping : GoString) (w : World (σ × List Call)) :
    createIndexWithMapping (recording client) indexName mapping w =
      ((createIndexWithMapping client indexName mapping ⟨w.store.1, w.trace⟩).1,
        ⟨((createIndexWithMapping client indexName mapping ⟨w.store.1, w.trace⟩).2.store,
            w.store.2 ++ [Call.createReq indexName mapping]),
          (createIndexWithMapping client indexName mapping ⟨w.store.1, w.trace⟩).2.trace⟩) := by
  unfold createIndexWithMapping recording
  simp only
  generalize client.indicesCreate indexName mapping w.store.1 = p
  rcases p with ⟨r, s⟩
  cases r with
  | error err => rfl
  | ok res =>
    by_cases herr : res.IsError = true
    · by_cases hc : res.StatusCode = StatusBadRequest ∧
          stringsContains res.Body alreadyExistsMarker = true
      · simp [herr, hc, World.emit]
      · simp [herr, hc]
    · simp [herr, World.emit]

theorem filterMap_toCall_printf (evs : List Event)
    (h : ∀ e ∈ evs, ∃ line, e = Event.printf line) :
    evs.filterMap Event.toCall = [] := by
  induction evs with
  | nil => rfl
  | cons e evs ih =>
    obtain ⟨line, he⟩ := h e (List.mem_cons_self _ _)
    subst he
    simp only [List.filterMap_cons, Event.toCall]
    exact ih (fun e1 h1 => h e1 (List.mem_cons_of_mem _ h1))

theorem map_existsCall_toCall (names : List GoString) :
    (names.map Event.existsCall).filterMap Event.toCall = names.map Call.existsReq := by
  induction names with
  | nil => rfl
  | cons n rest ih => simp [Event.toCall, ih]

end AutoCreate

namespace AutoCreate

theorem checkExists_recording {σ : Type} (client : Client σ) (indexName : GoString)
    (w : World (σ × List Call)) :
    checkExists client indexName ⟨w.store.1, w.trace⟩ =
      ((checkExists (recording client) indexName w).1,
        ⟨((checkExists (recording client) indexName w).2.store.1,
            (checkExists (recording client) indexName w).2.store.2.1),
          (checkExists (recording client) indexName w).2.trace⟩) := by
  have h := retryLoop_sim retryCount retryInterval
    (existsClosure (recording client) indexName) (existsClosure client indexName)
    (fun w1 v1 => v1 = ⟨(w1.store.1, w1.store.2.1), w1.trace⟩)
    (fun w1 v1 hR => by
      subst hR
      rw [existsClosure_recording]
      exact ⟨rfl, rfl⟩)
    (fun w1 v1 hR => by subst hR; rfl)
    (List.range retryCount.toNat) ⟨(false, w.store), w.trace⟩ ⟨(false, w.store.1), w.trace⟩ rfl
  unfold checkExists retry
  exact Prod.ext h.1.symm h.2

theorem retry_create_recording {σ : Type} (client : Client σ)
    (indexName body : GoString) (w : World (σ × List Call)) :
    retry retryCount retryInterval (createIndexWithMapping client indexName body)
        ⟨w.store.1, w.trace⟩ =
      ((retry retryCount retryInterval
          (createIndexWithMapping (recording client) indexName body) w).1,
        ⟨(retry retryCount retryInterval
            (createIndexWithMapping (recording client) indexName body) w).2.store.1,
          (retry retryCount retryInterval
            (createIndexWithMapping (recording client) indexName body) w).2.trace⟩) := by
  have h := retryLoop_sim retryCount retryInterval
    (createIndexWithMapping (recording client) indexName body)
    (createIndexWithMapping client indexName body)
    (fun w1 v1 => v1 = ⟨w1.store.1, w1.trace⟩)
    (fun w1 v1 hR => by
      subst hR
      rw [createIndexWithMapping_recording]
      exact ⟨rfl, rfl⟩)
    (fun w1 v1 hR => by subst hR; rfl)
    (List.range retryCount.toNat) w ⟨w.store.1, w.trace⟩ rfl
  unfold retry
  exact Prod.ext h.1.symm h.2

/-- One iteration against the recording client does what the iteration
against the client itself does. -/
theorem createIndexesBody_recording {σ : Type} (client : Client σ) (indexName : GoString)
    (specialIndexList queryIndexList : List GoString) (w : World (σ × List Call)) :
    createIndexesBody client indexName specialIndexList queryIndexList
        ⟨w.store.1, w.trace⟩ =
      ⟨(createIndexesBody (recording client) indexName specialIndexList queryIndexList
          w).store.1,
        (createIndexesBody (recording client) indexName specialIndexList queryIndexList
          w).trace⟩ := by
  unfold createIndexesBody
  rw [checkExists_recording]
  rcases checkExists (recording client) indexName w with ⟨r, w1⟩
  cases r with
  | some err => rfl
  | none =>
    by_cases hex : w1.store.1 = true
    · simp [hex]
    · have hc := retry_create_recording client indexName
        (selectSettings specialIndexList queryIndexList indexName) ⟨w1.store.2, w1.trace⟩
      simp only at hc
      simp only [hex, if_false]
      rw [hc]
      rcases retry retryCount retryInterval
          (createIndexWithMapping (recording client) indexName
            (selectSettings specialIndexList queryIndexList indexName))
          ⟨w1.store.2, w1.trace⟩ with ⟨r2, w2⟩
      cases r2 with
      | some err => rfl
      | none => rfl

/-- The run against the recording client does what the run against the
client itself does. -/
theorem createIndexes_recording {σ : Type} (client : Client σ)
    (indexNames specialIndexList queryIndexList : List GoString)
    (w : World (σ × List Call)) :
    createIndexes client indexNames specialIndexList queryIndexList ⟨w.store.1, w.trace⟩ =
      ⟨(createIndexes (recording client) indexNames specialIndexList queryIndexList
          w).store.1,
        (createIndexes (recording client) indexNames specialIndexList queryIndexList
          w).trace⟩ := by
  induction indexNames generalizing w with
  | nil => rfl
  | cons n rest ih =>
    rw [createIndexes_cons, createIndexes_cons, createIndexesBody_recording]
    exact ih _

/-- One iteration against the recording client keeps trace and log in step:
the requests in the trace are the requests the client received. -/
theorem createIndexesBody_logged {σ : Type} (client : Client σ) (indexName : GoString)
    (specialIndexList queryIndexList : List GoString) (tr0 : List Event)
    (log0 : List Call) (w : World (σ × List Call))
    (hw : ∃ evs, w.trace = tr0 ++ evs ∧ w.store.2 = log0 ++ evs.filterMap Event.toCall) :
    ∃ evs,
      (createIndexesBody (recording client) indexName specialIndexList queryIndexList
          w).trace = tr0 ++ evs ∧
      (createIndexesBody (recording client) indexName specialIndexList queryIndexList
          w).store.2 = log0 ++ evs.filterMap Event.toCall := by
  have hcheck := retryLoop_invariant retryCount retryInterval
    (existsClosure (recording client) indexName)
    (fun w1 => ∃ evs, w1.trace = tr0 ++ evs ∧
      w1.store.2.2 = log0 ++ evs.filterMap Event.toCall)
    (fun w1 h1 => by
      obtain ⟨evs, ht, hl⟩ := h1
      refine ⟨evs ++ [Event.existsCall indexName], ?_, ?_⟩
      · rw [existsClosure_trace, ht, List.append_assoc]
      · rw [existsClosure_recording]
        simp [hl, Event.toCall])
    (fun w1 h1 => by
      obtain ⟨evs, ht, hl⟩ := h1
      exact ⟨evs ++ [Event.sleep retryInterval],
        by simp [timeSleep, World.emit, ht], by simp [timeSleep, World.emit, hl, Event.toCall]⟩)
    (List.range retryCount.toNat) ⟨(false, w.store), w.trace⟩ hw
  have hprint : ∀ (v : World (σ × List Call)) (line : LogLine),
      (∃ evs, v.trace = tr0 ++ evs ∧ v.store.2 = log0 ++ evs.filterMap Event.toCall) →
      ∃ evs, (v.trace ++ [Event.printf line]) = tr0 ++ evs ∧
        v.store.2 = log0 ++ evs.filterMap Event.toCall := by
    intro v line hv
    obtain ⟨evs, ht, hl⟩ := hv
    exact ⟨evs ++ [Event.printf line], by simp [ht], by simp [hl, Event.toCall]⟩
  unfold createIndexesBody
  have hce : checkExists (recording client) indexName w =
      retryLoop retryCount retryInterval (existsClosure (recording client) indexName)
        (List.range retryCount.toNat) ⟨(false, w.store), w.trace⟩ := rfl
  rw [hce]
  rcases hrl : retryLoop retryCount retryInterval (existsClosure (recording client) indexName)
      (List.range retryCount.toNat) ⟨(false, w.store), w.trace⟩ with ⟨r, w1⟩
  rw [hrl] at hcheck
  simp only at hcheck
  cases r with
  | some err => exact hprint ⟨w1.store.2, w1.trace⟩ _ hcheck
  | none =>
    by_cases hex : w1.store.1 = true
    · simp only [hex, if_true]
      exact hprint ⟨w1.store.2, w1.trace⟩ _ hcheck
    · simp only [hex, if_false]
      have hcreate := retryLoop_invariant retryCount retryInterval
        (createIndexWithMapping (recording client) indexName
          (selectSettings specialIndexList queryIndexList indexName))
        (fun v => ∃ evs, v.trace = tr0 ++ evs ∧
          v.store.2 = log0 ++ evs.filterMap Event.toCall)
        (fun v hv => by
          obtain ⟨evs, ht, hl⟩ := hv
          obtain ⟨evs1, ht1, hp1⟩ := createIndexWithMapping_trace (recording client)
            indexName (selectSettings specialIndexList queryIndexList indexName) v
          refine ⟨evs ++ Event.createCall indexName
            (selectSettings specialIndexList queryIndexList indexName) :: evs1, ?_, ?_⟩
          · rw [ht1, ht, List.append_assoc]
          · rw [createIndexWithMapping_recording]
            simp [hl, Event.toCall, filterMap_toCall_printf evs1 hp1])
        (fun v hv => by
          obtain ⟨evs, ht, hl⟩ := hv
          exact ⟨evs ++ [Event.sleep retryInterval],
            by simp [timeSleep, World.emit, ht],
            by simp [timeSleep, World.emit, hl, Event.toCall]⟩)
        (List.range retryCount.toNat) ⟨w1.store.2, w1.trace⟩ hcheck
      have hre : retry retryCount retryInterval
          (createIndexWithMapping (recording client) indexName
            (selectSettings specialIndexList queryIndexList indexName))
          ⟨w1.store.2, w1.trace⟩ =
          retryLoop retryCount retryInterval
            (createIndexWithMapping (recording client) indexName
              (selectSettings specialIndexList queryIndexList indexName))
            (List.range retryCount.toNat) ⟨w1.store.2, w1.trace⟩ := rfl
      rw [hre]
      rcases hrl2 : retryLoop retryCount retryInterval
          (createIndexWithMapping (recording client) indexName
            (selectSettings specialIndexList queryIndexList indexName))
          (List.range retryCount.toNat) ⟨w1.store.2, w1.trace⟩ with ⟨r2, w2⟩
      rw [hrl2] at hcreate
      simp only at hcreate
      cases r2 with
      | some err => exact hprint w2 _ hcreate
      | none => exact hcreate

/-- The run against the recording client keeps trace and log in step. -/
theorem createIndexes_logged {σ : Type} (client : Client σ)
    (indexNames specialIndexList queryIndexList : List GoString) (tr0 : List Event)
    (log0 : List Call) (w : World (σ × List Call))
    (hw : ∃ evs, w.trace = tr0 ++ evs ∧ w.store.2 = log0 ++ evs.filterMap Event.toCall) :
    ∃ evs,
      (createIndexes (recording client) indexNames specialIndexList queryIndexList
          w).trace = tr0 ++ evs ∧
      (createIndexes (recording client) indexNames specialIndexList queryIndexList
          w).store.2 = log0 ++ evs.filterMap Event.toCall := by
  induction indexNames generalizing w with
  | nil => exact hw
  | cons n rest ih =>
    rw [createIndexes_cons]
    exact ih _ (createIndexesBody_logged client n specialIndexList queryIndexList tr0 log0 w hw)

/-- C10 (batch isolation): for every list of names, every position in it
and every behaviour of the cluster client:
(1) the run over the whole list is the run over the names before, then the
run of the name alone from the world they left, then the run over the names
after, so what happened to earlier names changes nothing in how a name is
handled;
(2) the run of a name alone, from any world, is its retried existence check
followed by the error line, or the already-exists line, or the retried
creation with the selected body (and the error line when that fails);
(3) against the recording client, the requests in the trace are exactly the
requests the client received, and these hold an existence request for every
name of the list, in list order;
(4) the recording client changes nothing in the run;
(5) the appended events are one segment per name, in list order, each
starting with the existence request of its name and holding only events that
concern it;
(6) on a cluster where the existence check of `badcheck` always fails and the
creation of `badcreate` always fails, the list `badcheck, badcreate, ok` gets
three checks of `badcheck`, a check and three creation attempts of
`badcreate`, and then the check and the creation of `ok`. -/
theorem createIndexes_batch_isolation {σ : Type} (client : Client σ)
    (pre : List GoString) (indexName : GoString) (rest : List GoString)
    (specialIndexList queryIndexList : List GoString) (w : World σ) (log : List Call) :
    createIndexes client (pre ++ indexName :: rest) specialIndexList queryIndexList w =
      createIndexes client rest specialIndexList queryIndexList
        (createIndexes client [indexName] specialIndexList queryIndexList
          (createIndexes client pre specialIndexList queryIndexList w)) ∧
    (∀ w0 : World σ,
      (∀ err w1, checkExists client indexName w0 = (some err, w1) →
        createIndexes client [indexName] specialIndexList queryIndexList w0 =
          ⟨w1.store.2, w1.trace ++ [Event.printf (LogLine.checkError err)]⟩) ∧
      (∀ w1, checkExists client indexName w0 = (none, w1) → w1.store.1 = true →
        createIndexes client [indexName] specialIndexList queryIndexList w0 =
          ⟨w1.store.2, w1.trace ++ [Event.printf (LogLine.alreadyExists indexName)]⟩) ∧
      (∀ w1 w2, checkExists client indexName w0 = (none, w1) → w1.store.1 = false →
        retry retryCount retryInterval
            (createIndexWithMapping client indexName
              (selectSettings specialIndexList queryIndexList indexName))
            ⟨w1.store.2, w1.trace⟩ = (none, w2) →
        createIndexes client [indexName] specialIndexList queryIndexList w0 = w2) ∧
      (∀ w1 w2 err, checkExists client indexName w0 = (none, w1) → w1.store.1 = false →
        retry retryCount retryInterval
            (createIndexWithMapping client indexName
              (selectSettings specialIndexList queryIndexList indexName))
            ⟨w1.store.2, w1.trace⟩ = (some err, w2) →
        createIndexes client [indexName] specialIndexList queryIndexList w0 =
          ⟨w2.store, w2.trace ++ [Event.printf (LogLine.createError err)]⟩)) ∧
    (∃ evs,
      (createIndexes (recording client) (pre ++ indexName :: rest) specialIndexList
          queryIndexList ⟨(w.store, log), w.trace⟩).trace = w.trace ++ evs ∧
      (createIndexes (recording client) (pre ++ indexName :: rest) specialIndexList
          queryIndexList ⟨(w.store, log), w.trace⟩).store.2 =
        log ++ evs.filterMap Event.toCall ∧
      ((pre ++ indexName :: rest).map Call.existsReq).Sublist
        (evs.filterMap Event.toCall)) ∧
    ((createIndexes (recording client) (pre ++ indexName :: rest) specialIndexList
          queryIndexList ⟨(w.store, log), w.trace⟩).trace =
        (createIndexes client (pre ++ indexName :: rest) specialIndexList
          queryIndexList w).trace ∧
      (createIndexes (recording client) (pre ++ indexName :: rest) specialIndexList
          queryIndexList ⟨(w.store, log), w.trace⟩).store.1 =
        (createIndexes client (pre ++ indexName :: rest) specialIndexList
          queryIndexList w).store) ∧
    (∃ segs : List (List Event),
      List.Forall₂ (fun n seg => ∀ e ∈ seg, Event.concerns n e = true)
        (pre ++ indexName :: rest) segs ∧
      (createIndexes client (pre ++ indexName :: rest) specialIndexList
          queryIndexList w).trace =
        w.trace ++
          (List.zipWith (fun n seg => Event.existsCall n :: seg)
            (pre ++ indexName :: rest) segs).flatten ∧
      ((pre ++ indexName :: rest).map Event.existsCall).Sublist
        (List.zipWith (fun n seg => Event.existsCall n :: seg)
          (pre ++ indexName :: rest) segs).flatten) ∧
    createIndexes faultyCluster [goStr "badcheck", goStr "badcreate", goStr "ok"]
        [goStr "metrics"] [goStr "audit"] ⟨[], []⟩ =
      ⟨[goStr "ok"],
        [Event.existsCall (goStr "badcheck"), Event.sleep retryInterval,
          Event.existsCall (goStr "badcheck"), Event.sleep retryInterval,
          Event.existsCall (goStr "badcheck"),
          Event.printf (LogLine.checkError (GoError.transport (goStr "timeout"))),
          Event.existsCall (goStr "badcreate"),
          Event.createCall (goStr "badcreate") indexSettingsDefault,
          Event.sleep retryInterval,
          Event.createCall (goStr "badcreate") indexSettingsDefault,
          Event.sleep retryInterval,
          Event.createCall (goStr "badcreate") indexSettingsDefault,
          Event.printf (LogLine.createError
            (GoError.createFailed 500 (goStr "internal error"))),
          Event.existsCall (goStr "ok"),
          Event.createCall (goStr "ok") indexSettingsDefault,
          Event.printf (LogLine.created (goStr "ok"))]⟩ := by
  refine ⟨?_, ?_, ?_, ?_, ?_, by decide⟩
  · rw [createIndexes_append, createIndexes_cons, createIndexes_cons]
    rfl
  · intro w0
    refine ⟨?_, ?_, ?_, ?_⟩
    · intro err w1 hcheck
      rw [createIndexes_cons]
      unfold createIndexesBody
      rw [hcheck]
      rfl
    · intro w1 hcheck hex
      rw [createIndexes_cons]
      unfold createIndexesBody
      rw [hcheck]
      simp [hex, createIndexes]
    · intro w1 w2 hcheck hex hcreate
      rw [createIndexes_cons]
      unfold createIndexesBody
      rw [hcheck]
      simp only [hex, Bool.false_eq_true, if_false]
      rw [hcreate]
      rfl
    · intro w1 w2 err hcheck hex hcreate
      rw [createIndexes_cons]
      unfold createIndexesBody
      rw [hcheck]
      simp only [hex, Bool.false_eq_true, if_false]
      rw [hcreate]
      rfl
  · obtain ⟨evs, ht, hl⟩ := createIndexes_logged client (pre ++ indexName :: rest)
      specialIndexList queryIndexList w.trace log ⟨(w.store, log), w.trace⟩
      ⟨[], by simp, by simp⟩
    obtain ⟨segs, _, hseg, hsub⟩ := createIndexes_segments (recording client)
      (pre ++ indexName :: rest) specialIndexList queryIndexList ⟨(w.store, log), w.trace⟩
    refine ⟨evs, ht, hl, ?_⟩
    have hevs : evs = (List.zipWith (fun n seg => Event.existsCall n :: seg)
        (pre ++ indexName :: rest) segs).flatten :=
      List.append_cancel_left (ht.symm.trans hseg)
    rw [← map_existsCall_toCall, hevs]
    exact hsub.filterMap Event.toCall
  · have h := createIndexes_recording client (pre ++ indexName :: rest) specialIndexList
      queryIndexList ⟨(w.store, log), w.trace⟩
    simp only at h
    rw [h]
    exact ⟨rfl, rfl⟩
  · exact createIndexes_segments client (pre ++ indexName :: rest) specialIndexList
      queryIndexList w

/-- Where the wall-clock time of the next day does not exist, `AddDate` lands
on the evening before: from 2024-09-07 00:30 in Santiago the name suffix is
`20240907`. Elsewhere it is the next calendar day, also across the end of
February and of the year. -/
theorem AddDate_examples :
    (⟨1725683400, santiagoLocation⟩ : Time).Date = (2024, 9, 7) ∧
    (⟨1725683400, santiagoLocation⟩ : Time).Clock = (0, 30, 0) ∧
    ((⟨1725683400, santiagoLocation⟩ : Time).AddDate 0 0 1).format20060102 =
      goStr "20240907" ∧
    ((⟨1709208000, utcLocation⟩ : Time).AddDate 0 0 1).format20060102 = goStr "20240301" ∧
    ((⟨1735689599, utcLocation⟩ : Time).AddDate 0 0 1).format20060102 = goStr "20250101" := by
  decide

/-- C4 (end-to-end run with no classification lists set): with
`INDEXES=logs`, `SpecialList` and `QueryList` empty, the time 2024-06-14
12:00:00 UTC and a cluster on which nothing exists, `AddIndex` checks `logs20240615` and then
sends its creation request with the Special document, not the Default one:
splitting the empty string on commas gives the one-entry list `[""]`, and the
empty entry occurs in every name. The same run with `SpecialList=metrics` and
`QueryList=audit` sends the Default document. -/
theorem AddIndex_empty_lists_create_special :
    (⟨1718366400, utcLocation⟩ : Time).Date = (2024, 6, 14) ∧
    (⟨1718366400, utcLocation⟩ : Time).Clock = (12, 0, 0) ∧
    (AddIndex
        ⟨goStr "localhost", goStr "9200", goStr "", goStr "", goStr "logs", goStr "", goStr ""⟩
        ⟨1718366400, utcLocation⟩ (fun _ => Except.ok memoryCluster) ⟨[], []⟩).trace =
      [Event.existsCall (goStr "logs20240615"),
        Event.createCall (goStr "logs20240615") indexSettingsSpecial,
        Event.printf (LogLine.created (goStr "logs20240615"))] ∧
    indexSettingsSpecial ≠ indexSettingsDefault ∧
    stringsSplit comma (goStr "") = [goStr ""] ∧
    contains [goStr ""] (goStr "logs20240615") = true ∧
    stringsContains indexSettingsDefault (goStr "\"timestamp\"") = true ∧
    stringsContains indexSettingsSpecial (goStr "\"timestamp\"") = false ∧
    (AddIndex
        ⟨goStr "localhost", goStr "9200", goStr "", goStr "", goStr "logs", goStr "metrics",
          goStr "audit"⟩
        ⟨1718366400, utcLocation⟩ (fun _ => Except.ok memoryCluster) ⟨[], []⟩).trace =
      [Event.existsCall (goStr "logs20240615"),
        Event.createCall (goStr "logs20240615") indexSettingsDefault,
        Event.printf (LogLine.created (goStr "logs20240615"))] := by
  decide

end AutoCreate
